import Mathlib

/-!
Verification of the IsoWeather card-stack navigation and gesture-driven
view-state engine.

The definitions below are a shallow embedding of the state and event
handlers of `src/App.tsx` (together with the types of `src/types.ts`).
JavaScript numbers are modelled as `ℚ` (pixel coordinates, drag deltas)
and as `Int`/`Nat` where the source only ever holds integers (the
unbounded `activeIndex` cursor, relative offsets, collection lengths).
The JavaScript `%` operator is truncated division remainder, i.e.
`Int.tmod`.  React `useState` setters inside a single event handler are
modelled by a pure state-transition function: reads of state inside the
handler see the render-time (pre-event) values, and all queued updates
are applied when the handler returns, which matches React's semantics
for these handlers.
-/

namespace IsoWeather

/-- Mirrors the `AppState` enum of `src/types.ts`. -/
inductive AppState where
  | IDLE
  | FETCHING_WEATHER
  | GENERATING_IMAGE
  | EDITING_IMAGE
  | SUCCESS
  | ERROR
deriving DecidableEq, Repr

/-- The part of `WeatherData` (`src/types.ts`) that the stack engine inspects:
only the stable unique `id` is ever read by the handlers under verification
(`city` is kept as representative opaque payload). -/
structure WeatherData where
  id : String
  city : String
deriving DecidableEq, Repr

/-- The part of `GeneratedImage` (`src/types.ts`) relevant here: opaque payload. -/
structure GeneratedImage where
  url : String
deriving DecidableEq, Repr

/-- `WeatherCardData` of `src/types.ts`: a saved card. -/
structure WeatherCardData where
  weather : WeatherData
  image : GeneratedImage
deriving DecidableEq, Repr

/-- The top-level application state of `src/App.tsx` (the `useState` hooks of
`App`, lines 17-41, plus the `dragStartX` ref of line 28). -/
structure AppModel where
  state : AppState
  savedCards : List WeatherCardData
  homeBg : Option String
  activeIndex : Int
  dragX : ℚ
  isDragging : Bool
  dragStartX : Option ℚ
  screenWidth : ℚ
  previewCard : Option WeatherCardData
  previewDragOffset : ℚ
  expandedCardId : Option String
  refreshingCardId : Option String
  showFantasy : Bool
  errorMsg : String
  isScrolled : Bool
deriving DecidableEq, Repr

/-- `SWIPE_THRESHOLD` (src/App.tsx:13). -/
def SWIPE_THRESHOLD : ℚ := 100

/-- `DRAG_THRESHOLD` (src/App.tsx:14). -/
def DRAG_THRESHOLD : ℚ := 5

/-- The Euclidean-wrap expression `((index % length) + length) % length`
used by `getCardData` (src/App.tsx:70) and by the spec's `CyclicCardIndex.wrap`;
JavaScript `%` is `Int.tmod`. -/
def wrap (index length : Int) : Int :=
  ((index.tmod length) + length).tmod length

/-- `getCardData` (src/App.tsx:67-72): resolve an unbounded index to a card,
returning `none` on an empty collection. -/
def getCardData (savedCards : List WeatherCardData) (index : Int) : Option WeatherCardData :=
  if savedCards.length = 0 then none
  else savedCards[(wrap index (savedCards.length : Int)).toNat]?

/-- `handleTouchStart` (src/App.tsx:75-80): arm the drag unless a card is
expanded, a preview is active, or the collection is empty. -/
def handleTouchStart (s : AppModel) (clientX : ℚ) : AppModel :=
  if s.expandedCardId ≠ none ∨ s.previewCard ≠ none ∨ s.savedCards.length = 0 then s
  else { s with dragStartX := some clientX }

/-- `handleTouchMove` (src/App.tsx:82-95).  Note the React subtlety: the
`if (isDragging) setDragX(delta)` test reads the render-time `isDragging`,
so on the event that first crosses `DRAG_THRESHOLD` the flag is set but
`dragX` is not yet written. -/
def handleTouchMove (s : AppModel) (clientX : ℚ) : AppModel :=
  match s.dragStartX with
  | none => s
  | some startX =>
    if s.expandedCardId ≠ none ∨ s.previewCard ≠ none then s
    else
      let delta := clientX - startX
      let newIsDragging :=
        if s.isDragging = false ∧ DRAG_THRESHOLD < |delta| then true else s.isDragging
      if s.isDragging then { s with isDragging := newIsDragging, dragX := delta }
      else { s with isDragging := newIsDragging }

/-- `handleTouchEnd` (src/App.tsx:97-117): commit a swipe when the final delta
strictly exceeds `SWIPE_THRESHOLD`, then reset the drag state. -/
def handleTouchEnd (s : AppModel) : AppModel :=
  match s.dragStartX with
  | none => s
  | some _ =>
    let s1 :=
      if s.isDragging ∧ SWIPE_THRESHOLD < |s.dragX| then
        if 0 < s.dragX then { s with activeIndex := s.activeIndex - 1 }
        else { s with activeIndex := s.activeIndex + 1 }
      else s
    { s1 with dragX := 0, dragStartX := none, isDragging := false }

/-- The stack subtree carrying the touch/mouse handlers is mounted only when
`savedCards.length > 0 && !expandedCardId` (src/App.tsx:473); a pointer-down
can reach `handleTouchStart` only then. -/
def deliverTouchStart (s : AppModel) (clientX : ℚ) : AppModel :=
  if 0 < s.savedCards.length ∧ s.expandedCardId = none then handleTouchStart s clientX
  else s

/-- Pointer-move delivery, gated by the same mount condition (src/App.tsx:473). -/
def deliverTouchMove (s : AppModel) (clientX : ℚ) : AppModel :=
  if 0 < s.savedCards.length ∧ s.expandedCardId = none then handleTouchMove s clientX
  else s

/-- JavaScript `Math.round`: rounds half toward positive infinity. -/
def jsRound (q : ℚ) : Int := ⌊q + 1/2⌋

/-- JavaScript `Math.ceil`. -/
def jsCeil (q : ℚ) : Int := ⌈q⌉

/-- The visual style computed per card by the layout engine. -/
structure CardStyle where
  x : ℚ
  scale : ℚ
  opacity : ℚ
  zIndex : Int
  animated : Bool
deriving DecidableEq, Repr

/-- `cardWidth = Math.min(340, screenWidth * 0.9)` (src/App.tsx:121). -/
def cardWidth (screenWidth : ℚ) : ℚ := min 340 (screenWidth * (9/10))

/-- `parkX = -(screenWidth / 2) - (cardWidth / 2) + peekAmount` with
`peekAmount = 20` (src/App.tsx:134-135). -/
def parkX (screenWidth : ℚ) : ℚ :=
  -(screenWidth / 2) - (cardWidth screenWidth / 2) + 20

/-- The body of `getCardStyle` (src/App.tsx:120-180) as a function of the
normalized `progress = relativeOffset + dragX / screenWidth` (line 125).
Decimal literals of the source are exact rationals here
(`0.05 = 1/20`, `0.2 = 1/5`, `1.5 = 3/2`, `0.9 = 9/10`, `0.5 = 1/2`); the
final `scale = Math.max(0.5, scale)` safety clamp (line 167) is applied in
each branch. -/
def getCardStyleCore (screenWidth : ℚ) (isDragging : Bool) (progress : ℚ) : CardStyle :=
  if progress < 0 then
    { x := progress * |parkX screenWidth|,
      scale := max (1/2) (1 + (max progress (-1)) * (1/20)),
      opacity := if progress < -(1/5) then max 0 (1 - (|progress| - 1/5) * (3/2)) else 1,
      zIndex := 200 + jsRound (|progress| * 10),
      animated := !isDragging }
  else
    { x := progress * 20,
      scale := max (1/2) (1 - progress * (1/20)),
      opacity := if 3 < progress then max 0 (1 - (progress - 3)) else 1,
      zIndex := 100 - jsCeil progress,
      animated := !isDragging }

/-- `getCardStyle` (src/App.tsx:120-180). -/
def getCardStyle (screenWidth dragX : ℚ) (isDragging : Bool) (relativeOffset : Int) : CardStyle :=
  getCardStyleCore screenWidth isDragging ((relativeOffset : ℚ) + dragX / screenWidth)

/-- The relative offsets that actually render for a collection of length
`activeLength` (src/App.tsx:487-496): the window `[-2,-1,0,1,2,3,4]`, minus
any positive offset at or above `visibleStackLimit = min(activeLength, 3)`,
minus all non-zero offsets when `activeLength == 1`, minus everything when the
collection is empty (`getCardData` returns null, line 496). -/
def renderedOffsets (activeLength : Nat) : List Int :=
  ([-2, -1, 0, 1, 2, 3, 4] : List Int).filter fun offset =>
    decide (¬(0 < offset ∧ ((min activeLength 3 : Nat) : Int) ≤ offset)
      ∧ ¬(activeLength = 1 ∧ offset ≠ 0)
      ∧ activeLength ≠ 0)

/-- The `onClick` handler of the stack card rendered at relative `offset`
(src/App.tsx:509-517): a center click expands the card, an off-center click
jumps the cursor by `offset`, and nothing happens mid-drag.  The click is
deliverable only while the stack subtree is mounted (src/App.tsx:473) and the
offset is in the render window (src/App.tsx:487-496). -/
def cardClick (s : AppModel) (offset : Int) : AppModel :=
  if 0 < s.savedCards.length ∧ s.expandedCardId = none
      ∧ offset ∈ renderedOffsets s.savedCards.length then
    match getCardData s.savedCards (s.activeIndex + offset) with
    | none => s
    | some cardData =>
      if offset = 0 ∧ s.isDragging = false then
        { s with expandedCardId := some cardData.weather.id }
      else if offset ≠ 0 ∧ s.isDragging = false then
        { s with activeIndex := s.activeIndex + offset }
      else s
  else s

/-- The synchronous entry of `handleRefresh` (src/App.tsx:255-257): the
single-flight guard.  Returns the updated state and whether a new refresh
request was actually started; the asynchronous body runs only when the
second component is `true`. -/
def handleRefresh (s : AppModel) (card : WeatherCardData) : AppModel × Bool :=
  if s.refreshingCardId ≠ none then (s, false)
  else ({ s with refreshingCardId := some card.weather.id }, true)

/-- Completion of an in-flight refresh (src/App.tsx:258-287): apply the
updated card to the preview or to the matching saved cards, then clear the
single-flight guard (the `finally` block, line 286). -/
def handleRefreshComplete (s : AppModel) (card updatedCard : WeatherCardData) : AppModel :=
  let s1 :=
    if s.previewCard.map (fun pc => pc.weather.id) = some card.weather.id then
      { s with previewCard := some updatedCard }
    else
      { s with savedCards :=
          s.savedCards.map fun c =>
            if c.weather.id = card.weather.id then updatedCard else c }
  { s1 with refreshingCardId := none }

/-- `handleRemoveCard` (src/App.tsx:290-300): drop every card whose
`weather.id` equals `id`; if the collection becomes empty, also reset the app
state to `IDLE` and the cursor to 0. -/
def handleRemoveCard (s : AppModel) (id : String) : AppModel :=
  let newCards := s.savedCards.filter fun c => c.weather.id ≠ id
  if newCards.length = 0 then
    { s with savedCards := newCards, state := AppState.IDLE, activeIndex := 0 }
  else
    { s with savedCards := newCards }

/-- `handleSavePreview` (src/App.tsx:339-348): append the preview card and
point the cursor at the pre-append collection length (the `setActiveIndex`
call reads the render-time `savedCards`, i.e. the length before the append). -/
def handleSavePreview (s : AppModel) : AppModel :=
  match s.previewCard with
  | none => s
  | some pc =>
    { s with savedCards := s.savedCards ++ [pc],
             activeIndex := (s.savedCards.length : Int),
             previewCard := none,
             previewDragOffset := 0,
             isScrolled := false,
             state := AppState.IDLE }

/-- Cancelling a preview: the `onToggleExpand` callback of the preview
overlay (src/App.tsx:584-588). -/
def handleCancelPreview (s : AppModel) : AppModel :=
  { s with previewCard := none, previewDragOffset := 0, isScrolled := false }

/-- A concrete card used in witnesses and counterexamples. -/
def cardA : WeatherCardData :=
  { weather := { id := "card-a", city := "Amsterdam" }, image := { url := "img-a" } }

/-- A second concrete card. -/
def cardB : WeatherCardData :=
  { weather := { id := "card-b", city := "Bergen" }, image := { url := "img-b" } }

/-- A concrete unsaved preview card. -/
def cardP : WeatherCardData :=
  { weather := { id := "card-p", city := "Porto" }, image := { url := "img-p" } }

/-- A concrete state: one saved card, a preview active, no drag in progress. -/
def previewClickState : AppModel :=
  { state := AppState.SUCCESS,
    savedCards := [cardA],
    homeBg := none,
    activeIndex := 0,
    dragX := 0,
    isDragging := false,
    dragStartX := none,
    screenWidth := 375,
    previewCard := some cardP,
    previewDragOffset := 0,
    expandedCardId := none,
    refreshingCardId := none,
    showFantasy := false,
    errorMsg := "",
    isScrolled := false }

/-- A concrete state: two saved cards, a drag of +150px in progress. -/
def draggingState : AppModel :=
  { state := AppState.IDLE,
    savedCards := [cardA, cardB],
    homeBg := none,
    activeIndex := 0,
    dragX := 150,
    isDragging := true,
    dragStartX := some 20,
    screenWidth := 375,
    previewCard := none,
    previewDragOffset := 0,
    expandedCardId := none,
    refreshingCardId := none,
    showFantasy := false,
    errorMsg := "",
    isScrolled := false }

/-! ## Helper lemmas -/

/-- Negating the dividend negates the truncated remainder. -/
lemma tmod_neg_dividend (a b : Int) : (-a).tmod b = -(a.tmod b) := by
  rw [Int.tmod_def, Int.tmod_def, Int.neg_tdiv]
  ring

/-- Lower bound for the truncated remainder with a positive divisor. -/
lemma neg_lt_tmod (a : Int) {b : Int} (h : 0 < b) : -b < a.tmod b := by
  rcases le_or_lt 0 a with ha | ha
  · have h1 := Int.tmod_nonneg b ha
    omega
  · have h1 : (-a).tmod b < b := Int.tmod_lt_of_pos _ h
    have h2 := tmod_neg_dividend a b
    omega

/-- The source's wrap expression agrees with the Euclidean remainder for a
positive length. -/
lemma wrap_eq_emod (i N : Int) (h : 0 < N) : wrap i N = i % N := by
  have hub := Int.tmod_lt_of_pos i h
  have hlb := neg_lt_tmod i h
  have hnn : 0 ≤ i.tmod N + N := by omega
  unfold wrap
  rw [Int.tmod_eq_emod hnn (le_of_lt h)]
  have hrw : i.tmod N + N = i + N * (1 - i.tdiv N) := by
    rw [Int.tmod_def]
    ring
  rw [hrw, Int.add_mul_emod_self_left]

/-! ## Claims -/

/-- C1: for every integer index `i` and every length `N > 0`, the wrapped
index `((i % N) + N) % N` used by `getCardData` lies in `[0, N)`, wrapping
`i` and `i + N` agree, and on an empty collection `getCardData` returns
`none` instead of indexing. -/
theorem wrap_correct (i N : Int) (h : 0 < N) :
    (0 ≤ wrap i N ∧ wrap i N < N) ∧
    wrap i N = wrap (i + N) N ∧
    (∀ cards : List WeatherCardData, cards = [] → ∀ j : Int, getCardData cards j = none) := by
  refine ⟨⟨?_, ?_⟩, ?_, ?_⟩
  · rw [wrap_eq_emod i N h]
    exact Int.emod_nonneg i (by omega)
  · rw [wrap_eq_emod i N h]
    exact Int.emod_lt_of_pos i h
  · rw [wrap_eq_emod i N h, wrap_eq_emod (i + N) N h]
    have hrw : i + N = i + N * 1 := by ring
    rw [hrw, Int.add_mul_emod_self_left]
  · rintro cards rfl j
    rfl

/-- Witness for C1 at `i = -5`, `N = 3`. -/
theorem wrap_correct_witness :
    (0 ≤ wrap (-5) 3 ∧ wrap (-5) 3 < 3) ∧
    wrap (-5) 3 = wrap (-5 + 3) 3 ∧
    (∀ cards : List WeatherCardData, cards = [] → ∀ j : Int, getCardData cards j = none) :=
  wrap_correct (-5) 3 (by norm_num)

/-- C2 counterexample: for a collection of length 2 the code does not cull the
negative offsets, so the rendered offsets are not `{0, 1}`; offset `-1`
renders and resolves to the same underlying card as offset `1`. -/
theorem window_cull_counterexample :
    renderedOffsets 2 ≠ [0, 1] ∧
    (-1 : Int) ∈ renderedOffsets 2 ∧
    getCardData [cardA, cardB] (0 + -1) = getCardData [cardA, cardB] (0 + 1) := by
  decide

/-- C2 amended: for `N = 1` only offset 0 renders; for `N = 2` the rendered
offsets are exactly `{-2, -1, 0, 1}` — the cull removes only positive offsets
at or above `min(N, 3)` — and offsets `-2` and `-1` resolve to the same
underlying cards as offsets `0` and `1` respectively, while the two
non-negative rendered offsets `0` and `1` resolve to distinct slots. -/
theorem window_cull_amended (cards : List WeatherCardData) (a : Int) :
    renderedOffsets 1 = [0] ∧
    renderedOffsets 2 = [-2, -1, 0, 1] ∧
    (cards.length = 2 →
      getCardData cards (a + -2) = getCardData cards a ∧
      getCardData cards (a + -1) = getCardData cards (a + 1) ∧
      wrap a 2 ≠ wrap (a + 1) 2) := by
  have e1 : wrap (a + -2) 2 = wrap a 2 := by
    rw [wrap_eq_emod _ 2 (by norm_num), wrap_eq_emod _ 2 (by norm_num)]
    omega
  have e2 : wrap (a + -1) 2 = wrap (a + 1) 2 := by
    rw [wrap_eq_emod _ 2 (by norm_num), wrap_eq_emod _ 2 (by norm_num)]
    omega
  have e3 : wrap a 2 ≠ wrap (a + 1) 2 := by
    rw [wrap_eq_emod _ 2 (by norm_num), wrap_eq_emod _ 2 (by norm_num)]
    omega
  refine ⟨by decide, by decide, fun h2 => ⟨?_, ?_, e3⟩⟩
  · simp only [getCardData, h2, Nat.cast_ofNat, e1]
  · simp only [getCardData, h2, Nat.cast_ofNat, e2]

/-- Witness for the amended C2 on a concrete two-card collection. -/
theorem window_cull_amended_witness :
    renderedOffsets 1 = [0] ∧
    renderedOffsets 2 = [-2, -1, 0, 1] ∧
    (getCardData [cardA, cardB] (0 + -2) = getCardData [cardA, cardB] 0 ∧
      getCardData [cardA, cardB] (0 + -1) = getCardData [cardA, cardB] (0 + 1) ∧
      wrap 0 2 ≠ wrap (0 + 1) 2) := by
  have h := window_cull_amended [cardA, cardB] 0
  exact ⟨h.1, h.2.1, h.2.2 rfl⟩

/-- C3: a release while dragging does not commit at exactly
`SWIPE_THRESHOLD`; beyond it, `activeIndex` moves by exactly one —
down for a rightward drag (previous card), up for a leftward drag (next
card) — and in all cases the drag state resets to neutral. -/
theorem handleTouchEnd_spec (s : AppModel)
    (h1 : s.dragStartX ≠ none) (h2 : s.isDragging = true) :
    (|s.dragX| = SWIPE_THRESHOLD → (handleTouchEnd s).activeIndex = s.activeIndex) ∧
    (SWIPE_THRESHOLD < |s.dragX| →
      (0 < s.dragX → (handleTouchEnd s).activeIndex = s.activeIndex - 1) ∧
      (s.dragX < 0 → (handleTouchEnd s).activeIndex = s.activeIndex + 1)) ∧
    (handleTouchEnd s).dragX = 0 ∧
    (handleTouchEnd s).isDragging = false ∧
    (handleTouchEnd s).dragStartX = none := by
  rcases hx : s.dragStartX with _ | x0
  · exact absurd hx h1
  have hmain : handleTouchEnd s =
      { (if s.isDragging ∧ SWIPE_THRESHOLD < |s.dragX| then
          if 0 < s.dragX then { s with activeIndex := s.activeIndex - 1 }
          else { s with activeIndex := s.activeIndex + 1 }
        else s) with
        dragX := 0, dragStartX := none, isDragging := false } := by
    simp only [handleTouchEnd, hx]
  refine ⟨?_, ?_, ?_, ?_, ?_⟩
  · intro heq
    have hnc : ¬(s.isDragging ∧ SWIPE_THRESHOLD < |s.dragX|) := by
      rintro ⟨-, hlt⟩
      rw [heq] at hlt
      exact lt_irrefl _ hlt
    rw [hmain, if_neg hnc]
  · intro hgt
    refine ⟨?_, ?_⟩
    · intro hpos
      rw [hmain, if_pos ⟨by rw [h2], hgt⟩, if_pos hpos]
    · intro hneg
      rw [hmain, if_pos ⟨by rw [h2], hgt⟩, if_neg (not_lt.mpr (le_of_lt hneg))]
  · rw [hmain]
  · rw [hmain]
  · rw [hmain]

/-- Witness for C3: a committed rightward drag on a concrete state. -/
theorem handleTouchEnd_spec_witness :
    (|draggingState.dragX| = SWIPE_THRESHOLD →
      (handleTouchEnd draggingState).activeIndex = draggingState.activeIndex) ∧
    (SWIPE_THRESHOLD < |draggingState.dragX| →
      (0 < draggingState.dragX →
        (handleTouchEnd draggingState).activeIndex = draggingState.activeIndex - 1) ∧
      (draggingState.dragX < 0 →
        (handleTouchEnd draggingState).activeIndex = draggingState.activeIndex + 1)) ∧
    (handleTouchEnd draggingState).dragX = 0 ∧
    (handleTouchEnd draggingState).isDragging = false ∧
    (handleTouchEnd draggingState).dragStartX = none :=
  handleTouchEnd_spec draggingState (by simp [draggingState]) rfl

/-- Offset 0 is never culled from the render window of a non-empty
collection. -/
lemma zero_mem_renderedOffsets (N : Nat) (hne : N ≠ 0) :
    (0 : Int) ∈ renderedOffsets N := by
  unfold renderedOffsets
  rw [List.mem_filter]
  refine ⟨by decide, ?_⟩
  simp [hne]

/-- C4 counterexample: in a state with a preview active and one saved card,
the card-select click is not rejected — it sets `expandedCardId` while
`previewCard` stays set, so both non-Stack modes are active at once. -/
theorem mutual_exclusion_counterexample :
    previewClickState.previewCard = some cardP ∧
    previewClickState.expandedCardId = none ∧
    (cardClick previewClickState 0).expandedCardId = some "card-a" ∧
    (cardClick previewClickState 0).previewCard = some cardP := by
  decide

/-- C4 amended: the card-select handler (src/App.tsx:509-517) checks only
`isCenter` and `!isDragging`, not the preview state; a center click processed
while a preview is active sets `expandedCardId` to the active card's id and
leaves `previewCard` set, so mutual exclusion is not enforced by a state
check at this transition (in the running app it rests on the preview overlay
covering the stack and intercepting pointer events). -/
theorem mutual_exclusion_amended (s : AppModel) (pc cardData : WeatherCardData)
    (hp : s.previewCard = some pc) (hd : s.isDragging = false)
    (he : s.expandedCardId = none) (hl : 0 < s.savedCards.length)
    (hc : getCardData s.savedCards s.activeIndex = some cardData) :
    (cardClick s 0).expandedCardId = some cardData.weather.id ∧
    (cardClick s 0).previewCard = some pc := by
  have h0 : (0 : Int) ∈ renderedOffsets s.savedCards.length :=
    zero_mem_renderedOffsets _ (by omega)
  have hcond : 0 < s.savedCards.length ∧ s.expandedCardId = none
      ∧ (0 : Int) ∈ renderedOffsets s.savedCards.length := ⟨hl, he, h0⟩
  simp only [cardClick, if_pos hcond, add_zero, hc]
  simp [hd, hp]

/-- Witness for the amended C4 on the concrete preview state. -/
theorem mutual_exclusion_amended_witness :
    (cardClick previewClickState 0).expandedCardId = some cardA.weather.id ∧
    (cardClick previewClickState 0).previewCard = some cardP :=
  mutual_exclusion_amended previewClickState cardP cardA rfl rfl rfl
    (by decide) rfl

/-- Resolving the pre-append length against the appended collection yields
the appended card: position `length` is the new last slot. -/
lemma getCardData_concat (cards : List WeatherCardData) (pc : WeatherCardData) :
    getCardData (cards ++ [pc]) (cards.length : Int) = some pc := by
  unfold getCardData
  have hlen : (cards ++ [pc]).length = cards.length + 1 := by simp
  rw [hlen, if_neg (Nat.succ_ne_zero _)]
  have hpos : (0 : Int) < ((cards.length + 1 : Nat) : Int) := by exact_mod_cast Nat.succ_pos _
  have hwrap : wrap (cards.length : Int) ((cards.length + 1 : Nat) : Int)
      = (cards.length : Int) := by
    rw [wrap_eq_emod _ _ hpos]
    exact Int.emod_eq_of_lt (by exact_mod_cast Nat.zero_le _)
      (by exact_mod_cast Nat.lt_succ_self _)
  rw [hwrap]
  simp

/-- C5: saving a preview appends exactly that one card, sets `activeIndex` to
the pre-append collection length (so the wrapped active position is the new
last slot and the saved card becomes active), and clears the preview;
cancelling clears the preview and leaves the collection unchanged. -/
theorem handleSavePreview_spec (s : AppModel) (pc : WeatherCardData)
    (h : s.previewCard = some pc) :
    (handleSavePreview s).savedCards = s.savedCards ++ [pc] ∧
    (handleSavePreview s).activeIndex = (s.savedCards.length : Int) ∧
    getCardData (handleSavePreview s).savedCards (handleSavePreview s).activeIndex = some pc ∧
    (handleSavePreview s).previewCard = none ∧
    (∀ t : AppModel, (handleCancelPreview t).savedCards = t.savedCards ∧
      (handleCancelPreview t).previewCard = none) := by
  have hs : handleSavePreview s =
      { s with savedCards := s.savedCards ++ [pc],
               activeIndex := (s.savedCards.length : Int),
               previewCard := none,
               previewDragOffset := 0,
               isScrolled := false,
               state := AppState.IDLE } := by
    simp only [handleSavePreview, h]
  refine ⟨by rw [hs], by rw [hs], ?_, by rw [hs], fun t => ⟨rfl, rfl⟩⟩
  rw [hs]
  exact getCardData_concat s.savedCards pc

/-- Witness for C5 on the concrete preview state. -/
theorem handleSavePreview_spec_witness :
    (handleSavePreview previewClickState).savedCards
        = previewClickState.savedCards ++ [cardP] ∧
    (handleSavePreview previewClickState).activeIndex
        = (previewClickState.savedCards.length : Int) ∧
    getCardData (handleSavePreview previewClickState).savedCards
        (handleSavePreview previewClickState).activeIndex = some cardP ∧
    (handleSavePreview previewClickState).previewCard = none ∧
    (∀ t : AppModel, (handleCancelPreview t).savedCards = t.savedCards ∧
      (handleCancelPreview t).previewCard = none) :=
  handleSavePreview_spec previewClickState cardP rfl

/-- C6: the layout function is continuous at `progress = 0`: both the
discard-side branch (`progress < 0`) and the stack-side branch
(`progress ≥ 0`) give `translateX = 0`, `scale = 1`, `opacity = 1` at the
boundary, and for any `ε > 0` a `δ > 0` keeps `translateX` and `scale`
within `ε` of the boundary values (and `opacity` exactly 1) for every
`progress` with `|progress| < δ`, on either side. -/
theorem getCardStyle_continuous_at_zero (w : ℚ) (dr : Bool) (ε : ℚ)
    (hε : 0 < ε) :
    (getCardStyleCore w dr 0).x = 0 ∧
    (getCardStyleCore w dr 0).scale = 1 ∧
    (getCardStyleCore w dr 0).opacity = 1 ∧
    ∃ δ : ℚ, 0 < δ ∧ ∀ p : ℚ, -δ < p → p < δ →
      |(getCardStyleCore w dr p).x - (getCardStyleCore w dr 0).x| < ε ∧
      |(getCardStyleCore w dr p).scale - (getCardStyleCore w dr 0).scale| < ε ∧
      (getCardStyleCore w dr p).opacity = (getCardStyleCore w dr 0).opacity := by
  have h0 : getCardStyleCore w dr 0 =
      { x := 0, scale := 1, opacity := 1, zIndex := 100, animated := !dr } := by
    simp only [getCardStyleCore]
    norm_num [jsCeil]
  rw [h0]
  set A : ℚ := |parkX w| with hA_def
  have hA : 0 ≤ A := abs_nonneg _
  have hApos : (0 : ℚ) < A + 21 := by linarith
  set E : ℚ := ε / (A + 21) with hE_def
  have hE0 : 0 < E := div_pos hε hApos
  have hEmul : E * (A + 21) = ε := div_mul_cancel₀ ε (ne_of_gt hApos)
  have hEε : E ≤ ε := by nlinarith
  refine ⟨rfl, rfl, rfl, min (1/5) E, lt_min (by norm_num) hE0, ?_⟩
  intro p hp1 hp2
  have hd1 : min (1/5 : ℚ) E ≤ 1/5 := min_le_left _ _
  have hd2 : min (1/5 : ℚ) E ≤ E := min_le_right _ _
  by_cases hp : p < 0
  · have hbranch : getCardStyleCore w dr p =
        { x := p * A,
          scale := max (1/2) (1 + (max p (-1)) * (1/20)),
          opacity := if p < -(1/5) then max 0 (1 - (|p| - 1/5) * (3/2)) else 1,
          zIndex := 200 + jsRound (|p| * 10),
          animated := !dr } := by
      simp only [getCardStyleCore, if_pos hp]
    rw [hbranch]
    have hge : -(1/5 : ℚ) < p := by linarith
    have habs : |p| < min (1/5 : ℚ) E := by
      rw [abs_of_neg hp]
      linarith
    refine ⟨?_, ?_, ?_⟩
    · have h1 : |p * A - 0| = |p| * A := by
        rw [sub_zero, abs_mul, abs_abs]
      rw [h1]
      calc |p| * A ≤ |p| * (A + 21) := by nlinarith [abs_nonneg p]
      _ < E * (A + 21) := by
          apply mul_lt_mul_of_pos_right _ hApos
          linarith
      _ = ε := hEmul
    · have hmax : max p (-1 : ℚ) = p := max_eq_left (by linarith)
      have hsc : max (1/2 : ℚ) (1 + p * (1/20)) = 1 + p * (1/20) :=
        max_eq_right (by linarith)
      rw [hmax, hsc]
      have h2 : |1 + p * (1/20) - 1| = |p| * (1/20) := by
        rw [show (1 : ℚ) + p * (1/20) - 1 = p * (1/20) by ring, abs_mul]
        norm_num
      rw [h2]
      have h3 : |p| * (1/20 : ℚ) ≤ |p| := by nlinarith [abs_nonneg p]
      linarith
    · rw [if_neg (by linarith : ¬ p < -(1/5 : ℚ))]
  · push_neg at hp
    have hbranch : getCardStyleCore w dr p =
        { x := p * 20,
          scale := max (1/2) (1 - p * (1/20)),
          opacity := if 3 < p then max 0 (1 - (p - 3)) else 1,
          zIndex := 100 - jsCeil p,
          animated := !dr } := by
      simp only [getCardStyleCore, if_neg (not_lt.mpr hp)]
    rw [hbranch]
    refine ⟨?_, ?_, ?_⟩
    · rw [sub_zero, abs_of_nonneg (by positivity)]
      have h1 : p * 20 < E * 20 := by nlinarith
      nlinarith
    · have hsc : max (1/2 : ℚ) (1 - p * (1/20)) = 1 - p * (1/20) :=
        max_eq_right (by nlinarith)
      rw [hsc, show (1 : ℚ) - p * (1/20) - 1 = -(p * (1/20)) by ring, abs_neg,
        abs_of_nonneg (by positivity)]
      nlinarith
    · rw [if_neg (by linarith : ¬ (3 : ℚ) < p)]

/-- Witness for C6 at `screenWidth = 375`, `ε = 1`. -/
theorem getCardStyle_continuous_at_zero_witness :
    (getCardStyleCore 375 false 0).x = 0 ∧
    (getCardStyleCore 375 false 0).scale = 1 ∧
    (getCardStyleCore 375 false 0).opacity = 1 ∧
    ∃ δ : ℚ, 0 < δ ∧ ∀ p : ℚ, -δ < p → p < δ →
      |(getCardStyleCore 375 false p).x - (getCardStyleCore 375 false 0).x| < 1 ∧
      |(getCardStyleCore 375 false p).scale - (getCardStyleCore 375 false 0).scale| < 1 ∧
      (getCardStyleCore 375 false p).opacity = (getCardStyleCore 375 false 0).opacity :=
  getCardStyle_continuous_at_zero 375 false 1 (by norm_num)

/-- C7: whenever a card is expanded, a preview is active, or the collection
is empty, pointer-down and pointer-move are silent no-ops: the state — drag
state, `activeIndex`, and every other field — is unchanged, and no error is
produced (the handlers simply return). -/
theorem gesture_input_noop (s : AppModel) (x y : ℚ)
    (h : s.expandedCardId ≠ none ∨ s.previewCard ≠ none ∨ s.savedCards = []) :
    deliverTouchStart s x = s ∧ deliverTouchMove s y = s := by
  rcases h with h | h | h
  · refine ⟨?_, ?_⟩
    · simp only [deliverTouchStart]
      rw [if_neg (by rintro ⟨-, he⟩; exact h he)]
    · simp only [deliverTouchMove]
      rw [if_neg (by rintro ⟨-, he⟩; exact h he)]
  · refine ⟨?_, ?_⟩
    · simp only [deliverTouchStart]
      split_ifs with hc
      · simp only [handleTouchStart]
        rw [if_pos (Or.inr (Or.inl h))]
      · rfl
    · simp only [deliverTouchMove]
      split_ifs with hc
      · simp only [handleTouchMove]
        rcases hd : s.dragStartX with _ | sx
        · rfl
        · simp [h]
      · rfl
  · have hlen : s.savedCards.length = 0 := by rw [h]; rfl
    refine ⟨?_, ?_⟩
    · simp only [deliverTouchStart]
      rw [if_neg (by rintro ⟨hl, -⟩; omega)]
    · simp only [deliverTouchMove]
      rw [if_neg (by rintro ⟨hl, -⟩; omega)]

/-- Witness for C7: gesture input on the concrete preview state. -/
theorem gesture_input_noop_witness :
    deliverTouchStart previewClickState 42 = previewClickState ∧
    deliverTouchMove previewClickState 42 = previewClickState :=
  gesture_input_noop previewClickState 42 42
    (Or.inr (Or.inl (by simp [previewClickState])))

/-- C8: while any refresh is in flight (`refreshingCardId` set), a further
`handleRefresh` call — for the same card or any other — returns the state
unchanged and starts no new request. -/
theorem handleRefresh_single_flight (s : AppModel) (card : WeatherCardData)
    (id0 : String) (h : s.refreshingCardId = some id0) :
    handleRefresh s card = (s, false) := by
  unfold handleRefresh
  rw [if_pos (by simp [h])]

/-- Witness for C8: a second refresh request while one is pending. -/
theorem handleRefresh_single_flight_witness :
    handleRefresh { draggingState with refreshingCardId := some "card-a" } cardA
      = ({ draggingState with refreshingCardId := some "card-a" }, false) :=
  handleRefresh_single_flight _ cardA "card-a" rfl

/-- C9: removing the sole remaining card leaves the collection empty, resets
`activeIndex` to 0 and returns the application state to `IDLE`. -/
theorem removeCard_sole_resets (s : AppModel) (c : WeatherCardData)
    (h : s.savedCards = [c]) :
    (handleRemoveCard s c.weather.id).savedCards = [] ∧
    (handleRemoveCard s c.weather.id).activeIndex = 0 ∧
    (handleRemoveCard s c.weather.id).state = AppState.IDLE := by
  have hf : s.savedCards.filter (fun x => x.weather.id ≠ c.weather.id) = [] := by
    rw [h]
    simp
  have hrem : handleRemoveCard s c.weather.id =
      { s with savedCards := [], state := AppState.IDLE, activeIndex := 0 } := by
    simp only [handleRemoveCard, hf]
    rfl
  exact ⟨by rw [hrem], by rw [hrem], by rw [hrem]⟩

/-- Witness for C9 on a one-card collection. -/
theorem removeCard_sole_resets_witness :
    (handleRemoveCard previewClickState cardA.weather.id).savedCards = [] ∧
    (handleRemoveCard previewClickState cardA.weather.id).activeIndex = 0 ∧
    (handleRemoveCard previewClickState cardA.weather.id).state = AppState.IDLE :=
  removeCard_sole_resets previewClickState cardA rfl

/-- C10: `handleRemoveCard` keeps exactly the cards whose id differs from the
given id, in their original relative order (a sublist), and when the result
is non-empty it leaves `activeIndex`, the app state and the view-mode fields
untouched. -/
theorem removeCard_frame (s : AppModel) (id : String) :
    (handleRemoveCard s id).savedCards.Sublist s.savedCards ∧
    (∀ c ∈ (handleRemoveCard s id).savedCards, c.weather.id ≠ id) ∧
    (∀ c ∈ s.savedCards, c.weather.id ≠ id → c ∈ (handleRemoveCard s id).savedCards) ∧
    ((handleRemoveCard s id).savedCards ≠ [] →
      (handleRemoveCard s id).activeIndex = s.activeIndex ∧
      (handleRemoveCard s id).state = s.state ∧
      (handleRemoveCard s id).expandedCardId = s.expandedCardId ∧
      (handleRemoveCard s id).previewCard = s.previewCard ∧
      (handleRemoveCard s id).refreshingCardId = s.refreshingCardId) := by
  have hcards : (handleRemoveCard s id).savedCards
      = s.savedCards.filter (fun c => c.weather.id ≠ id) := by
    simp only [handleRemoveCard]
    split_ifs <;> rfl
  refine ⟨?_, ?_, ?_, ?_⟩
  · rw [hcards]
    exact List.filter_sublist _
  · rw [hcards]
    intro c hc
    simpa using (List.mem_filter.mp hc).2
  · rw [hcards]
    intro c hc hne
    exact List.mem_filter.mpr ⟨hc, by simpa using hne⟩
  · intro hne
    have hlen : ¬ (s.savedCards.filter (fun c => c.weather.id ≠ id)).length = 0 := by
      rw [hcards] at hne
      simpa [List.length_eq_zero] using hne
    simp only [handleRemoveCard]
    rw [if_neg hlen]
    exact ⟨rfl, rfl, rfl, rfl, rfl⟩

/-- Witness for C10: removing one of two cards preserves the other and the
cursor, state and view-mode fields. -/
theorem removeCard_frame_witness :
    (handleRemoveCard draggingState "card-a").savedCards = [cardB] ∧
    (handleRemoveCard draggingState "card-a").activeIndex = draggingState.activeIndex ∧
    (handleRemoveCard draggingState "card-a").state = draggingState.state := by
  have h := removeCard_frame draggingState "card-a"
  exact ⟨by decide, (h.2.2.2 (by decide)).1, (h.2.2.2 (by decide)).2.1⟩

end IsoWeather
